import Mathlib

set_option autoImplicit false

namespace CommitSage

/-! Python string primitives used by the embedded code.
The embedding keeps to the character sets that Python uses for
str.splitlines, str.strip and str.lower (lowercasing is modelled on
the ASCII range, which covers every literal the program compares). -/

/-- Characters on which Python str.splitlines breaks a line. -/
def isLineBreak (c : Char) : Bool :=
  c == Char.ofNat 10 || c == Char.ofNat 13 || c == Char.ofNat 0x0b ||
  c == Char.ofNat 0x0c || c == Char.ofNat 0x1c || c == Char.ofNat 0x1d ||
  c == Char.ofNat 0x1e || c == Char.ofNat 0x85 || c == Char.ofNat 0x2028 ||
  c == Char.ofNat 0x2029

/-- Worker for pySplitlines: accumulates the current line in reverse. -/
def splitlinesAux : List Char → List Char → List String
  | [], acc => if acc.isEmpty then [] else [String.mk acc.reverse]
  | Char.ofNat 13 :: Char.ofNat 10 :: rest, acc =>
      String.mk acc.reverse :: splitlinesAux rest []
  | c :: rest, acc =>
      if isLineBreak c then String.mk acc.reverse :: splitlinesAux rest []
      else splitlinesAux rest (c :: acc)

/-- Python str.splitlines without keepends. -/
def pySplitlines (s : String) : List String :=
  splitlinesAux s.data []

/-- Characters Python str.strip removes (unicode whitespace). -/
def pyIsSpace (c : Char) : Bool :=
  c == Char.ofNat 32 || c == Char.ofNat 9 || c == Char.ofNat 10 ||
  c == Char.ofNat 13 || c == Char.ofNat 0x0b || c == Char.ofNat 0x0c ||
  (0x1c ≤ c.toNat && c.toNat ≤ 0x1f) || c == Char.ofNat 0x85 ||
  c == Char.ofNat 0xa0 || c == Char.ofNat 0x1680 ||
  (0x2000 ≤ c.toNat && c.toNat ≤ 0x200a) || c == Char.ofNat 0x2028 ||
  c == Char.ofNat 0x2029 || c == Char.ofNat 0x202f || c == Char.ofNat 0x205f ||
  c == Char.ofNat 0x3000

/-- Python str.strip with no argument. -/
def pyStrip (s : String) : String :=
  String.mk (((s.data.dropWhile pyIsSpace).reverse.dropWhile pyIsSpace).reverse)

/-- Python str.lower, modelled characterwise on the ASCII range. -/
def pyLower (s : String) : String :=
  String.mk (s.data.map Char.toLower)

/-- Python substring membership: needle in hay. -/
def pyIn (needle hay : String) : Bool :=
  (List.range (hay.data.length + 1)).any fun i =>
    List.isPrefixOf needle.data (hay.data.drop i)

/-- Python str.startswith. -/
def pyStartswith (pre s : String) : Bool :=
  List.isPrefixOf pre.data s.data

/-- Worker for pySplitNL: accumulates the current segment in
reverse. Unlike splitlines, a split on one separator keeps empty
segments, so the empty input yields one empty segment and a trailing
newline yields a trailing empty segment. -/
def splitNLAux : List Char → List Char → List String
  | [], acc => [String.mk acc.reverse]
  | c :: rest, acc =>
      if c == Char.ofNat 10 then String.mk acc.reverse :: splitNLAux rest []
      else splitNLAux rest (c :: acc)

/-- Python str.split with the single-character separator newline, as
the analysis parser calls it. -/
def pySplitNL (s : String) : List String :=
  splitNLAux s.data []

/-! Embedding of src/Utils/diff_parser.py. -/

/-- Truthiness of the current_file variable: None and the empty string are
falsy in Python, any other string is truthy. -/
def pyTruthy : Option String → Bool
  | none => false
  | some s => !(s == "")

/-- Suffix of the character list after the first occurrence of the
literal separator b-slash, mirroring the lazy groups of the pattern
diff space dash-dash git space a-slash group b-slash group dollar. -/
def afterFirstBSep : List Char → Option (List Char)
  | [] => none
  | c :: cs =>
      if List.isPrefixOf [Char.ofNat 32, Char.ofNat 98, Char.ofNat 47] (c :: cs) then
        some (cs.drop 2)
      else afterFirstBSep cs

/-- Result of re.match on a diff header line: the second captured group
(the post-image path), or none when the pattern does not match. -/
def matchDiffGit (line : String) : Option String :=
  if pyStartswith "diff --git a/" line then
    match afterFirstBSep (line.data.drop 13) with
    | some rest => some (String.mk rest)
    | none => none
  else none

/-- State of the scan in parse_diff: the per-file change lists in first
insertion order, and the current file (None initially). -/
structure DiffState where
  changes : List (String × List String)
  current : Option String

/-- Appending to a defaultdict-of-list entry: extends the list of an
existing key in place, otherwise adds the key at the end. -/
def addChange : List (String × List String) → String → String → List (String × List String)
  | [], f, c => [(f, [c])]
  | (k, v) :: rest, f, c =>
      if k == f then (k, v ++ [c]) :: rest
      else (k, v) :: addChange rest f c

/-- One iteration of the loop body of parse_diff. -/
def parseDiffLine (st : DiffState) (line : String) : DiffState :=
  if pyStartswith "diff --git" line then
    match matchDiffGit line with
    | some f => { st with current := some f }
    | none => st
  else if pyTruthy st.current && pyStartswith "+++" line then st
  else if pyTruthy st.current && pyStartswith "---" line then st
  else if pyTruthy st.current && (pyStartswith "+" line && !(pyStartswith "+++" line)) then
    match st.current with
    | some f =>
        { st with changes :=
            addChange st.changes f ("Code Added: " ++ pyStrip (String.mk (line.data.drop 1))) }
    | none => st
  else if pyTruthy st.current && (pyStartswith "-" line && !(pyStartswith "---" line)) then
    match st.current with
    | some f =>
        { st with changes :=
            addChange st.changes f ("Code Removed: " ++ pyStrip (String.mk (line.data.drop 1))) }
    | none => st
  else st

/-- parse_diff from src/Utils/diff_parser.py: a single scan over the
lines, returning the per-file summarized changes. -/
def parse_diff (diff_text : String) : List (String × List String) :=
  (List.foldl parseDiffLine ⟨[], none⟩ (pySplitlines diff_text)).changes

/-! A small model of Python values, covering the shapes the agent code
builds and inspects: strings, integers, lists, and insertion-ordered
dictionaries (association lists in first-insertion order). -/

inductive PyVal where
  | str : String → PyVal
  | int : Int → PyVal
  | list : List PyVal → PyVal
  | dict : List (PyVal × PyVal) → PyVal

mutual

/-- Python structural equality on the modelled values. -/
def pyBeq : PyVal → PyVal → Bool
  | PyVal.str a, PyVal.str b => a == b
  | PyVal.int a, PyVal.int b => a == b
  | PyVal.list a, PyVal.list b => pyBeqList a b
  | PyVal.dict a, PyVal.dict b => pyBeqDict a b
  | _, _ => false

/-- Elementwise pyBeq on lists. -/
def pyBeqList : List PyVal → List PyVal → Bool
  | [], [] => true
  | a :: as, b :: bs => pyBeq a b && pyBeqList as bs
  | _, _ => false

/-- Pairwise pyBeq on dict entries. -/
def pyBeqDict : List (PyVal × PyVal) → List (PyVal × PyVal) → Bool
  | [], [] => true
  | (k1, v1) :: as, (k2, v2) :: bs => pyBeq k1 k2 && (pyBeq v1 v2 && pyBeqDict as bs)
  | _, _ => false

end

/-- A single-quote character as a string, for the repr rendering. -/
def squote : String := String.singleton (Char.ofNat 39)

/-- Escaping of one character inside a Python repr of a string
(restricted to the classical escapes). -/
def reprEscapeChar (c : Char) : String :=
  if c == Char.ofNat 92 then "\\\\"
  else if c == Char.ofNat 39 then "\\" ++ squote
  else if c == Char.ofNat 10 then "\\n"
  else if c == Char.ofNat 13 then "\\r"
  else if c == Char.ofNat 9 then "\\t"
  else String.singleton c

/-- Escaping of a whole string inside a Python repr. -/
def reprEscape (s : String) : String :=
  String.join (s.data.map reprEscapeChar)

mutual

/-- Python repr of a modelled value. -/
def pyRepr : PyVal → String
  | PyVal.str s => squote ++ reprEscape s ++ squote
  | PyVal.int i => toString i
  | PyVal.list l => "[" ++ pyReprListItems l ++ "]"
  | PyVal.dict d => "\x7b" ++ pyReprDictItems d ++ "\x7d"

/-- Comma-joined reprs of list elements. -/
def pyReprListItems : List PyVal → String
  | [] => ""
  | [a] => pyRepr a
  | a :: rest => pyRepr a ++ ", " ++ pyReprListItems rest

/-- Comma-joined reprs of dict entries. -/
def pyReprDictItems : List (PyVal × PyVal) → String
  | [] => ""
  | [(k, v)] => pyRepr k ++ ": " ++ pyRepr v
  | (k, v) :: rest => pyRepr k ++ ": " ++ pyRepr v ++ ", " ++ pyReprDictItems rest

end

/-- Python str() applied to a modelled value: a string is itself, any
other value renders through repr. -/
def pyStr (v : PyVal) : String :=
  match v with
  | PyVal.str s => s
  | v => pyRepr v

/-- Lookup of a string key in a dict body, with a default: the get
method of a Python dict. -/
def pyDictGetD (d : List (PyVal × PyVal)) (k : String) (dflt : PyVal) : PyVal :=
  match d.find? (fun p => pyBeq p.1 (PyVal.str k)) with
  | some p => p.2
  | none => dflt

/-- Python membership test for a string needle, as the in operator
behaves on each value shape; on an integer the operator raises a
TypeError, modelled as the error case. -/
def pyContainsE (needle : String) : PyVal → Except String Bool
  | PyVal.dict d => Except.ok (d.any fun p => pyBeq p.1 (PyVal.str needle))
  | PyVal.list l => Except.ok (l.any fun x => pyBeq x (PyVal.str needle))
  | PyVal.str s => Except.ok (pyIn needle s)
  | PyVal.int _ => Except.error "TypeError: argument of type int is not iterable"

/-- The get method with a default, raising AttributeError on a
non-dict receiver. -/
def pyGetE (v : PyVal) (k : String) (dflt : PyVal) : Except String PyVal :=
  match v with
  | PyVal.dict d => Except.ok (pyDictGetD d k dflt)
  | _ => Except.error "AttributeError: get"

/-- Python slicing with bound 5, as the code applies it to the files
value: lists and strings are sliceable, other shapes raise. -/
def pySlice5E : PyVal → Except String (List PyVal)
  | PyVal.list l => Except.ok (l.take 5)
  | PyVal.str s => Except.ok ((s.data.take 5).map fun c => PyVal.str (String.singleton c))
  | _ => Except.error "TypeError: value is not subscriptable"

/-- Assignment to a Python dict key: replaces the value of an existing
key in place, otherwise appends the new entry. -/
def dictInsert : List (PyVal × PyVal) → PyVal → PyVal → List (PyVal × PyVal)
  | [], k, v => [(k, v)]
  | (k0, v0) :: rest, k, v =>
      if pyBeq k0 k then (k0, v) :: rest
      else (k0, v0) :: dictInsert rest k v

/-! Embedding of the fetch phases of src/Utils/pr_review_agent.py.
A remote MCP tool is its name together with an invocation oracle:
invoking it either returns a value or raises, which the model carries
as an Except result. -/

structure RemoteTool where
  name : String
  invoke : PyVal → Except String PyVal

/-- The selection idiom used by all three fetch phases: the first tool
whose lowercased name contains one of the keywords, scanning the tool
list in declaration order. -/
def selectTool (keywords : List String) (tools : List RemoteTool) : Option RemoteTool :=
  tools.find? fun t => keywords.any fun k => pyIn k (pyLower t.name)

/-- Whether one tool qualifies for a keyword list. -/
def toolMatches (keywords : List String) (t : RemoteTool) : Bool :=
  keywords.any fun k => pyIn k (pyLower t.name)

/-- The argument mapping passed to the metadata and diff tools. -/
def prParams (owner repo : String) (pr_number : Int) : PyVal :=
  PyVal.dict [(PyVal.str "owner", PyVal.str owner), (PyVal.str "repo", PyVal.str repo),
    (PyVal.str "pull_number", PyVal.int pr_number)]

/-- The fallback record built when no metadata tool is available. -/
def fallbackPRRecord (owner repo : String) (pr_number : Int) : PyVal :=
  PyVal.dict [(PyVal.str "owner", PyVal.str owner), (PyVal.str "repo", PyVal.str repo),
    (PyVal.str "number", PyVal.int pr_number),
    (PyVal.str "title", PyVal.str ("PR #" ++ toString pr_number)),
    (PyVal.str "body", PyVal.str "Unable to fetch PR description")]

/-- The metadata phase (method _get_pr_data): select a tool whose name
contains pull or pr; invoke it, returning its result; without a tool
return the synthesized fallback record; a raised invocation is caught
and becomes a one-key error dict. -/
def getPRData (tools : List RemoteTool) (owner repo : String) (pr_number : Int) : PyVal :=
  match selectTool ["pull", "pr"] tools with
  | some get_pr_tool =>
      match get_pr_tool.invoke (prParams owner repo pr_number) with
      | Except.ok pr_data => pr_data
      | Except.error e => PyVal.dict [(PyVal.str "error", PyVal.str e)]
  | none => fallbackPRRecord owner repo pr_number

/-- The diff phase (method _get_pr_diff): select a tool whose name
contains diff or compare; stringify its result; without a tool return
the fixed placeholder; a raised invocation becomes an explanation. -/
def getPRDiff (tools : List RemoteTool) (owner repo : String) (pr_number : Int) : String :=
  match selectTool ["diff", "compare"] tools with
  | some diff_tool =>
      match diff_tool.invoke (prParams owner repo pr_number) with
      | Except.ok diff_data => pyStr diff_data
      | Except.error e => "Error fetching diff: " ++ e
  | none => "Unable to fetch PR diff"

/-- The filename of one file record, as the code reads it with
file_info.get; a non-dict record raises AttributeError, modelled as
none. -/
def fileEntryKey (file_info : PyVal) : Option PyVal :=
  match file_info with
  | PyVal.dict d => some (pyDictGetD d "filename" (PyVal.str ""))
  | _ => none

/-- The argument mapping passed to the content tool for one file. -/
def contentParams (owner repo : String) (key : PyVal) : PyVal :=
  PyVal.dict [(PyVal.str "owner", PyVal.str owner), (PyVal.str "repo", PyVal.str repo),
    (PyVal.str "path", key), (PyVal.str "ref", PyVal.str "HEAD")]

/-- The value stored for one file: the fetched content, or the error
string built by the per-file except handler. -/
def contentEntry (ct : RemoteTool) (owner repo : String) (key : PyVal) : PyVal :=
  match ct.invoke (contentParams owner repo key) with
  | Except.ok content => content
  | Except.error fe => PyVal.str ("Error fetching content: " ++ fe)

/-- One iteration of the file loop: reads the filename, invokes the
content tool, and stores either the content or the per-file error
string under that filename; a non-dict record escapes to the outer
handler. -/
def fetchOneFile (ct : RemoteTool) (owner repo : String)
    (acc : List (PyVal × PyVal)) (file_info : PyVal) :
    Except String (List (PyVal × PyVal)) :=
  match fileEntryKey file_info with
  | none => Except.error "AttributeError: get"
  | some key => Except.ok (dictInsert acc key (contentEntry ct owner repo key))

/-- The loop over the (already sliced) file records. -/
def fetchFilesLoop (ct : RemoteTool) (owner repo : String) :
    List PyVal → List (PyVal × PyVal) → Except String (List (PyVal × PyVal))
  | [], acc => Except.ok acc
  | fi :: rest, acc =>
      match fetchOneFile ct owner repo acc fi with
      | Except.ok acc2 => fetchFilesLoop ct owner repo rest acc2
      | Except.error e => Except.error e

/-- The body of the outer try of _get_changed_files_content: select a
content tool, and when one exists and metadata has a files key, slice
the first five records and run the loop; otherwise the mapping stays
empty. -/
def getChangedFilesContentE (tools : List RemoteTool) (owner repo : String)
    (pr_data : PyVal) : Except String (List (PyVal × PyVal)) :=
  match selectTool ["content", "file"] tools with
  | some content_tool =>
      match pyContainsE "files" pr_data with
      | Except.error e => Except.error e
      | Except.ok false => Except.ok []
      | Except.ok true =>
          match pyGetE pr_data "files" (PyVal.list []) with
          | Except.error e => Except.error e
          | Except.ok files_val =>
              match pySlice5E files_val with
              | Except.error e => Except.error e
              | Except.ok files5 => fetchFilesLoop content_tool owner repo files5 []
  | none => Except.ok []

/-- The file-contents phase (method _get_changed_files_content): the
outer except converts any escaped error into a one-key error dict. -/
def getChangedFilesContent (tools : List RemoteTool) (owner repo : String)
    (pr_number : Int) (pr_data : PyVal) : PyVal :=
  match getChangedFilesContentE tools owner repo pr_data with
  | Except.ok m => PyVal.dict m
  | Except.error e => PyVal.dict [(PyVal.str "error", PyVal.str e)]

/-- The aggregate the analyze_pr method assembles before calling the
LLM: metadata, diff text, and per-file contents, fetched sequentially
in that order. -/
structure PRBundle where
  metadata : PyVal
  diff_text : String
  file_contents : PyVal

/-- The three fetch calls of analyze_pr, in source order; the file
phase receives the metadata result. -/
def fetchBundle (tools : List RemoteTool) (owner repo : String) (pr_number : Int) : PRBundle :=
  let pr_data := getPRData tools owner repo pr_number
  let diff_content := getPRDiff tools owner repo pr_number
  let file_contents := getChangedFilesContent tools owner repo pr_number pr_data
  ⟨pr_data, diff_content, file_contents⟩

/-! Embedding of the _parse_analysis method of PRReviewAgent. -/

/-- The structured record the agent produces (dataclass PRAnalysis). -/
structure PRAnalysis where
  summary : String
  best_practices : List String
  potential_issues : List String
  security_concerns : List String
  performance_insights : List String
  code_quality_score : Int
  recommendations : List String
  review_comment : String

/-- The local variables of the parsing loop; the current section is the
optional tag string the code assigns. -/
structure AnalysisState where
  summary : String
  best_practices : List String
  potential_issues : List String
  security_concerns : List String
  performance_insights : List String
  recommendations : List String
  code_quality_score : Int
  current_section : Option String

/-- The locals as the method initializes them before the loop. -/
def initAnalysisState : AnalysisState :=
  ⟨"Analysis completed", [], [], [], [], [], 7, none⟩

/-- The first maximal run of decimal digits in a character list: the
re.search of one-or-more digits used for the score. -/
def firstDigitRun : List Char → Option (List Char)
  | [] => none
  | c :: cs =>
      if c.isDigit then some (c :: cs.takeWhile Char.isDigit)
      else firstDigitRun cs

/-- Decimal value of a digit run (int applied to the matched group). -/
def digitsToNat (ds : List Char) : Nat :=
  ds.foldl (fun n c => 10 * n + (c.toNat - 48)) 0

/-- The branch chain of one loop iteration of _parse_analysis, applied
to the already stripped line: skip it when empty, otherwise walk the
keyword chain; the score branch updates the score from the first digit
run; a bullet line joins the list of the current section; any other
line replaces the summary when the current section is summary. -/
def parseLineCore (st : AnalysisState) (line : String) : AnalysisState :=
  if line == "" then st
  else if pyIn "summary" (pyLower line) then
    { st with current_section := some "summary" }
  else if pyIn "best practices" (pyLower line) || pyIn "good" (pyLower line) then
    { st with current_section := some "best_practices" }
  else if pyIn "issues" (pyLower line) || pyIn "problems" (pyLower line) then
    { st with current_section := some "issues" }
  else if pyIn "security" (pyLower line) then
    { st with current_section := some "security" }
  else if pyIn "performance" (pyLower line) then
    { st with current_section := some "performance" }
  else if pyIn "recommendations" (pyLower line) then
    { st with current_section := some "recommendations" }
  else if pyIn "quality score" (pyLower line) || pyIn "score" (pyLower line) then
    match firstDigitRun line.data with
    | some ds => { st with code_quality_score := Int.ofNat (digitsToNat ds) }
    | none => st
  else if pyStartswith "-" line || pyStartswith "*" line then
    let item := pyStrip (String.mk (line.data.drop 1))
    if st.current_section == some "best_practices" then
      { st with best_practices := st.best_practices ++ [item] }
    else if st.current_section == some "issues" then
      { st with potential_issues := st.potential_issues ++ [item] }
    else if st.current_section == some "security" then
      { st with security_concerns := st.security_concerns ++ [item] }
    else if st.current_section == some "performance" then
      { st with performance_insights := st.performance_insights ++ [item] }
    else if st.current_section == some "recommendations" then
      { st with recommendations := st.recommendations ++ [item] }
    else st
  else if st.current_section == some "summary" then
    { st with summary := line }
  else st

/-- One iteration of the loop body of _parse_analysis: the line is
stripped first, then fed to the branch chain. -/
def parseAnalysisLine (st : AnalysisState) (rawLine : String) : AnalysisState :=
  parseLineCore st (pyStrip rawLine)

/-- The parse of a raw analysis into the structured record: the text
is split on newline only, as the source splits it, and the review
comment is supplied by the caller, as in the source. -/
def parseAnalysis (analysis review_comment : String) : PRAnalysis :=
  let fin := List.foldl parseAnalysisLine initAnalysisState (pySplitNL analysis)
  ⟨fin.summary, fin.best_practices, fin.potential_issues, fin.security_concerns,
    fin.performance_insights, fin.code_quality_score, fin.recommendations, review_comment⟩

/-- Whether one loop iteration on an already stripped line writes the
summary: the line is non-empty, matches no keyword of the chain, is
not a bullet line, and the current section is summary. -/
def summaryWriteCore (st : AnalysisState) (line : String) : Bool :=
  if line == "" then false
  else if pyIn "summary" (pyLower line) then false
  else if pyIn "best practices" (pyLower line) || pyIn "good" (pyLower line) then false
  else if pyIn "issues" (pyLower line) || pyIn "problems" (pyLower line) then false
  else if pyIn "security" (pyLower line) then false
  else if pyIn "performance" (pyLower line) then false
  else if pyIn "recommendations" (pyLower line) then false
  else if pyIn "quality score" (pyLower line) || pyIn "score" (pyLower line) then false
  else if pyStartswith "-" line || pyStartswith "*" line then false
  else st.current_section == some "summary"

/-- Whether one loop iteration on a raw line writes the summary. -/
def summaryWriteB (st : AnalysisState) (rawLine : String) : Bool :=
  summaryWriteCore st (pyStrip rawLine)

/-- Whether a run of the loop from a given state over a list of lines
never takes the branch that overwrites the summary. -/
def noSummaryWrite : AnalysisState → List String → Bool
  | _, [] => true
  | st, l :: ls => !(summaryWriteB st l) && noSummaryWrite (parseAnalysisLine st l) ls

/-- Membership of a key in a dict body, by Python equality. -/
def keyMem (m : List (PyVal × PyVal)) (k : PyVal) : Bool :=
  m.any fun p => pyBeq p.1 k

/-! Concrete inputs used to instantiate the theorems below. -/

/-- A metadata tool whose invocation always raises. -/
def brokenPullTool : RemoteTool :=
  ⟨"get_pull_request", fun _ => Except.error "boom"⟩

/-- A content tool whose invocation always raises. -/
def brokenContentTool : RemoteTool :=
  ⟨"get_file_contents", fun _ => Except.error "404"⟩

/-- A content tool that returns the same content for every file. -/
def okContentTool : RemoteTool :=
  ⟨"get_file_contents", fun _ => Except.ok (PyVal.str "C")⟩

/-- A tool whose name matches no keyword group. -/
def demoIssueTool : RemoteTool :=
  ⟨"list_issues", fun _ => Except.error "offline"⟩

/-- A second tool matching the metadata keywords, declared later. -/
def demoPrTool : RemoteTool :=
  ⟨"pr_reader", fun _ => Except.error "offline"⟩

/-- A first tool matching the metadata keywords. -/
def demoPullTool : RemoteTool :=
  ⟨"Get_Pull_Request", fun _ => Except.error "offline"⟩

/-- A file record of the metadata files list with the given filename. -/
def fileRec (s : String) : PyVal :=
  PyVal.dict [(PyVal.str "filename", PyVal.str s)]

/-- A metadata record whose files list has six entries, the first two
sharing one filename. -/
def dupFilesPRData : PyVal :=
  PyVal.dict [(PyVal.str "files", PyVal.list
    [fileRec "a", fileRec "a", fileRec "b", fileRec "c", fileRec "d", fileRec "e"])]

/-- A metadata record whose files list has six entries with pairwise
distinct filenames. -/
def sixFilesPRData : PyVal :=
  PyVal.dict [(PyVal.str "files", PyVal.list
    [fileRec "a", fileRec "b", fileRec "c", fileRec "d", fileRec "e", fileRec "f"])]

/-! Theorems. -/

/-- Every value list growing through addChange stays non-empty. -/
theorem addChange_values_nonempty (m : List (String × List String)) (f c : String)
    (h : ∀ p ∈ m, p.2 ≠ []) : ∀ p ∈ addChange m f c, p.2 ≠ [] := by
  induction m with
  | nil =>
      intro p hp
      simp only [addChange, List.mem_singleton] at hp
      subst hp
      simp
  | cons a as ih =>
      obtain ⟨k, v⟩ := a
      have hkv : (k, v).2 ≠ [] := h (k, v) (by simp)
      have has : ∀ p ∈ as, p.2 ≠ [] := fun p hp => h p (by simp [hp])
      intro p hp
      simp only [addChange] at hp
      split at hp
      · rcases List.mem_cons.mp hp with h1 | h2
        · subst h1; simp
        · exact has p h2
      · rcases List.mem_cons.mp hp with h1 | h2
        · subst h1; exact hkv
        · exact ih has p h2

/-- One scan step of parse_diff keeps every recorded list non-empty. -/
theorem parseDiffLine_values_nonempty (st : DiffState) (l : String)
    (h : ∀ p ∈ st.changes, p.2 ≠ []) :
    ∀ p ∈ (parseDiffLine st l).changes, p.2 ≠ [] := by
  unfold parseDiffLine
  repeat' split
  all_goals first
    | exact h
    | exact addChange_values_nonempty _ _ _ h

/-- The whole scan keeps every recorded list non-empty. -/
theorem foldl_values_nonempty (lines : List String) (st : DiffState)
    (h : ∀ p ∈ st.changes, p.2 ≠ []) :
    ∀ p ∈ (List.foldl parseDiffLine st lines).changes, p.2 ≠ [] := by
  induction lines generalizing st with
  | nil => exact h
  | cons l ls ih => exact ih _ (parseDiffLine_values_nonempty st l h)

/-- Without a diff header line the scan leaves the state unchanged. -/
theorem foldl_no_header (lines : List String) (m : List (String × List String))
    (h : ∀ l ∈ lines, pyStartswith "diff --git" l = false) :
    List.foldl parseDiffLine ⟨m, none⟩ lines = ⟨m, none⟩ := by
  induction lines with
  | nil => rfl
  | cons l ls ih =>
      have hl := h l (by simp)
      have step : parseDiffLine ⟨m, none⟩ l = ⟨m, none⟩ := by
        unfold parseDiffLine
        simp [hl, pyTruthy]
      rw [List.foldl_cons, step]
      exact ih fun x hx => h x (by simp [hx])

/-- Claim C5: on the worked diff example, parse_diff yields exactly one
file x whose changes are the added line line1 followed by the removed
line line2, in that order. -/
theorem claim_C5 :
    parse_diff "diff --git a/x b/x\n+++ b/x\n--- a/x\n+line1\n-line2\n" =
      [("x", ["Code Added: line1", "Code Removed: line2"])] := by decide

/-- Claim C6: every key of a parse_diff result carries at least one
recorded change; a file seen only through its header is never a key. -/
theorem claim_C6 (s : String) (p : String × List String) (hp : p ∈ parse_diff s) :
    p.2 ≠ [] :=
  foldl_values_nonempty (pySplitlines s) ⟨[], none⟩ (by simp) p hp

/-- Witness for claim C6 at a concrete diff. -/
theorem claim_C6_witness :
    ("x", ["Code Added: alpha", "Code Removed: beta"]).2 ≠ ([] : List String) :=
  claim_C6 "diff --git a/x b/x\n+alpha\n-beta" _ (by decide)

/-- Claim C7: parse_diff is a total function of its input, and on any
input with no line starting with the diff header marker it returns the
empty mapping. -/
theorem claim_C7 (s : String)
    (h : ∀ l ∈ pySplitlines s, pyStartswith "diff --git" l = false) :
    parse_diff s = [] := by
  unfold parse_diff
  rw [foldl_no_header _ _ h]

/-- Witness for claim C7 at a concrete garbage input. -/
theorem claim_C7_witness : parse_diff "hello\nworld ---\n+++ stray" = [] :=
  claim_C7 _ (by decide)

/-- A first-match scan returns the head of the qualifying suffix. -/
theorem find?_first_of_prefix {α : Type} (p : α → Bool) (pre : List α) (t : α) (post : List α)
    (hpre : ∀ u ∈ pre, p u = false) (ht : p t = true) :
    (pre ++ t :: post).find? p = some t := by
  induction pre with
  | nil => simp [List.find?_cons, ht]
  | cons a as ih =>
      have ha := hpre a (by simp)
      simp only [List.cons_append, List.find?_cons, ha, cond_false]
      exact ih fun u hu => hpre u (by simp [hu])

/-- Claim C8: tool selection returns none when no tool name
case-insensitively contains a keyword, and otherwise the first
qualifying tool in declaration order. -/
theorem claim_C8 (keywords : List String) (tools pre post : List RemoteTool) (t : RemoteTool) :
    ((∀ u ∈ tools, toolMatches keywords u = false) → selectTool keywords tools = none)
    ∧ (tools = pre ++ t :: post → (∀ u ∈ pre, toolMatches keywords u = false) →
        toolMatches keywords t = true → selectTool keywords tools = some t) := by
  constructor
  · intro h
    show tools.find? (toolMatches keywords) = none
    rw [List.find?_eq_none]
    intro u hu
    simp [h u hu]
  · intro heq hpre ht
    subst heq
    show (pre ++ t :: post).find? (toolMatches keywords) = some t
    exact find?_first_of_prefix _ pre t post hpre ht

/-- Witness for claim C8 on concrete tool lists. -/
theorem claim_C8_witness :
    selectTool ["pull", "pr"] [demoIssueTool] = none
    ∧ selectTool ["pull", "pr"] [demoIssueTool, demoPullTool, demoPrTool] = some demoPullTool :=
  ⟨(claim_C8 ["pull", "pr"] [demoIssueTool] [] [] demoIssueTool).1 (by decide),
   (claim_C8 ["pull", "pr"] [demoIssueTool, demoPullTool, demoPrTool] [demoIssueTool]
      [demoPrTool] demoPullTool).2 rfl (by decide) (by decide)⟩

/-- A step that does not write the summary leaves it unchanged. -/
theorem parseLineCore_summary_const (st : AnalysisState) (line : String)
    (h : summaryWriteCore st line = false) :
    (parseLineCore st line).summary = st.summary := by
  unfold parseLineCore
  unfold summaryWriteCore at h
  revert h
  generalize (line == "") = c0
  generalize pyIn "summary" (pyLower line) = c1
  generalize pyIn "best practices" (pyLower line) = c2
  generalize pyIn "good" (pyLower line) = c3
  generalize pyIn "issues" (pyLower line) = c4
  generalize pyIn "problems" (pyLower line) = c5
  generalize pyIn "security" (pyLower line) = c6
  generalize pyIn "performance" (pyLower line) = c7
  generalize pyIn "recommendations" (pyLower line) = c8
  generalize pyIn "quality score" (pyLower line) = c9
  generalize pyIn "score" (pyLower line) = c10
  generalize firstDigitRun line.data = fd
  generalize pyStartswith "-" line = c11
  generalize pyStartswith "*" line = c12
  generalize (st.current_section == some "best_practices") = d1
  generalize (st.current_section == some "issues") = d2
  generalize (st.current_section == some "security") = d3
  generalize (st.current_section == some "performance") = d4
  generalize (st.current_section == some "recommendations") = d5
  generalize (st.current_section == some "summary") = d6
  intro h
  cases c0 <;> cases c1 <;> cases c2 <;> cases c3 <;> cases c4 <;> cases c5 <;>
    cases c6 <;> cases c7 <;> cases c8 <;> try rfl
  cases c9 <;> cases c10 <;> cases fd <;> try rfl
  all_goals (cases c11 <;> cases c12 <;> cases d1 <;> cases d2 <;> cases d3 <;>
    cases d4 <;> cases d5 <;> cases d6 <;> first | rfl | simp at h)

/-- The summary survives a run in which no step writes it. -/
theorem noSummaryWrite_foldl (lines : List String) (st : AnalysisState)
    (h : noSummaryWrite st lines = true) :
    (List.foldl parseAnalysisLine st lines).summary = st.summary := by
  induction lines generalizing st with
  | nil => rfl
  | cons l ls ih =>
      simp only [noSummaryWrite, Bool.and_eq_true, Bool.not_eq_true'] at h
      rw [List.foldl_cons, ih _ h.2]
      exact parseLineCore_summary_const st (pyStrip l) h.1

/-- Claim C10: when no step of the run writes the summary (no
non-bullet, non-header content line occurs while the current section
is summary), the returned summary is the fixed default. -/
theorem claim_C10 (text rc : String)
    (h : noSummaryWrite initAnalysisState (pySplitNL text) = true) :
    (parseAnalysis text rc).summary = "Analysis completed" :=
  noSummaryWrite_foldl (pySplitNL text) initAnalysisState h

/-- Witness for claim C10 on a text of headers and bullets only. -/
theorem claim_C10_witness :
    (parseAnalysis "## Issues\n- bug A\n- bug B" "").summary = "Analysis completed" :=
  claim_C10 _ "" (by decide)

/-- Claim C1 (amended): when a metadata tool is selected and its
invocation raises, the bundle metadata is the one-key error dict built
from the exception text — not the synthesized fallback record, which
is returned only when no tool matches — and the diff phase is still
attempted: the bundle diff text is exactly the diff phase result. -/
theorem claim_C1 (tools : List RemoteTool) (o r : String) (n : Int) (t : RemoteTool) (e : String)
    (hsel : selectTool ["pull", "pr"] tools = some t)
    (hinv : t.invoke (prParams o r n) = Except.error e) :
    (fetchBundle tools o r n).metadata = PyVal.dict [(PyVal.str "error", PyVal.str e)]
    ∧ (fetchBundle tools o r n).diff_text = getPRDiff tools o r n := by
  constructor
  · show getPRData tools o r n = _
    simp only [getPRData, hsel, hinv]
  · rfl

/-- Witness for claim C1 with a raising metadata tool. -/
theorem claim_C1_witness :
    (fetchBundle [brokenPullTool] "alice" "proj" 2).metadata
        = PyVal.dict [(PyVal.str "error", PyVal.str "boom")]
    ∧ (fetchBundle [brokenPullTool] "alice" "proj" 2).diff_text
        = getPRDiff [brokenPullTool] "alice" "proj" 2 :=
  claim_C1 [brokenPullTool] "alice" "proj" 2 brokenPullTool "boom" rfl rfl

/-- Counterexample to claim C1 as stated: with a metadata tool whose
invocation raises, the bundle metadata is the one-key error dict, and
that differs from the synthesized fallback record. -/
theorem claim_C1_counterexample :
    (fetchBundle [brokenPullTool] "o" "r" 1).metadata
        = PyVal.dict [(PyVal.str "error", PyVal.str "boom")]
    ∧ (fetchBundle [brokenPullTool] "o" "r" 1).metadata ≠ fallbackPRRecord "o" "r" 1 := by
  refine ⟨rfl, fun hcontra => ?_⟩
  exact absurd (congrArg (fun v => pyBeq v (fallbackPRRecord "o" "r" 1)) hcontra) (by decide)

/-- A run of the file loop over records that all carry a filename
never aborts. -/
theorem fetchFilesLoop_total (ct : RemoteTool) (o r : String) (fis : List PyVal) :
    ∀ acc, (∀ g ∈ fis, (fileEntryKey g).isSome = true) →
    ∃ m, fetchFilesLoop ct o r fis acc = Except.ok m := by
  induction fis with
  | nil => exact fun acc _ => ⟨acc, rfl⟩
  | cons g gs ih =>
      intro acc hall
      obtain ⟨key, hkey⟩ := Option.isSome_iff_exists.mp (hall g (by simp))
      obtain ⟨m, hm⟩ :=
        ih (dictInsert acc key (contentEntry ct o r key)) fun x hx => hall x (by simp [hx])
      refine ⟨m, ?_⟩
      simp only [fetchFilesLoop, fetchOneFile, hkey]
      exact hm

/-- Claim C3: in the file-contents loop, a file whose fetch raises has
the error string stored under its path while the loop goes on with the
remaining files from that enlarged mapping; and the loop never aborts
as long as the file records carry filenames, so one failing file never
prevents the others from being fetched. -/
theorem claim_C3 (ct : RemoteTool) (o r : String) (acc : List (PyVal × PyVal))
    (fi key : PyVal) (e : String) (rest fis : List PyVal) :
    (fileEntryKey fi = some key →
      ct.invoke (contentParams o r key) = Except.error e →
      fetchFilesLoop ct o r (fi :: rest) acc =
        fetchFilesLoop ct o r rest
          (dictInsert acc key (PyVal.str ("Error fetching content: " ++ e))))
    ∧ ((∀ g ∈ fis, (fileEntryKey g).isSome = true) →
      ∃ m, fetchFilesLoop ct o r fis acc = Except.ok m) := by
  constructor
  · intro hkey hinv
    simp only [fetchFilesLoop, fetchOneFile, contentEntry, hkey, hinv]
  · exact fetchFilesLoop_total ct o r fis acc

/-- Witness for claim C3: the first fetch raises, the error is stored,
and the loop still succeeds on both files. -/
theorem claim_C3_witness :
    (fetchFilesLoop brokenContentTool "o" "r" [fileRec "a.py", fileRec "b.py"] [] =
      fetchFilesLoop brokenContentTool "o" "r" [fileRec "b.py"]
        [(PyVal.str "a.py", PyVal.str "Error fetching content: 404")])
    ∧ ∃ m, fetchFilesLoop brokenContentTool "o" "r" [fileRec "a.py", fileRec "b.py"] []
        = Except.ok m :=
  ⟨(claim_C3 brokenContentTool "o" "r" [] (fileRec "a.py") (PyVal.str "a.py") "404"
      [fileRec "b.py"] [fileRec "a.py", fileRec "b.py"]).1 rfl rfl,
   (claim_C3 brokenContentTool "o" "r" [] (fileRec "a.py") (PyVal.str "a.py") "404"
      [fileRec "b.py"] [fileRec "a.py", fileRec "b.py"]).2 (by decide)⟩

/-- One dict assignment grows the mapping by at most one entry. -/
theorem dictInsert_length (m : List (PyVal × PyVal)) (k v : PyVal) :
    (dictInsert m k v).length ≤ m.length + 1 := by
  induction m with
  | nil => simp [dictInsert]
  | cons a rest ih =>
      obtain ⟨k0, v0⟩ := a
      simp only [dictInsert]
      split <;> simp only [List.length_cons] <;> omega

/-- A successful iteration of the file loop grows the mapping by at
most one entry. -/
theorem fetchOneFile_ok_length (ct : RemoteTool) (o r : String)
    (acc : List (PyVal × PyVal)) (g : PyVal) (acc2 : List (PyVal × PyVal))
    (h : fetchOneFile ct o r acc g = Except.ok acc2) : acc2.length ≤ acc.length + 1 := by
  unfold fetchOneFile at h
  cases hk : fileEntryKey g with
  | none => simp [hk] at h
  | some key =>
      simp only [hk] at h
      injection h with h2
      subst h2
      exact dictInsert_length acc key _

/-- A successful run of the file loop adds at most one entry per file
record. -/
theorem fetchFilesLoop_ok_length (ct : RemoteTool) (o r : String) (fis : List PyVal) :
    ∀ acc m, fetchFilesLoop ct o r fis acc = Except.ok m →
    m.length ≤ acc.length + fis.length := by
  induction fis with
  | nil =>
      intro acc m h
      simp only [fetchFilesLoop] at h
      injection h with h2
      subst h2
      simp
  | cons g gs ih =>
      intro acc m h
      simp only [fetchFilesLoop] at h
      cases hfo : fetchOneFile ct o r acc g with
      | error e => simp [hfo] at h
      | ok acc2 =>
          simp only [hfo] at h
          have h1 := ih acc2 m h
          have h2 := fetchOneFile_ok_length ct o r acc g acc2 hfo
          simp only [List.length_cons]
          omega

/-- Slicing with bound 5 yields at most five records. -/
theorem pySlice5E_length (v : PyVal) (l : List PyVal) (h : pySlice5E v = Except.ok l) :
    l.length ≤ 5 := by
  cases v with
  | str s =>
      simp only [pySlice5E] at h
      injection h with h2
      subst h2
      simp only [List.length_map, List.length_take]
      omega
  | int i => simp [pySlice5E] at h
  | list l2 =>
      simp only [pySlice5E] at h
      injection h with h2
      subst h2
      simp only [List.length_take]
      omega
  | dict d => simp [pySlice5E] at h

/-- The body of the file-contents phase returns at most five
entries. -/
theorem getCFCE_ok_length (tools : List RemoteTool) (o r : String) (pr_data : PyVal)
    (m : List (PyVal × PyVal)) (h : getChangedFilesContentE tools o r pr_data = Except.ok m) :
    m.length ≤ 5 := by
  unfold getChangedFilesContentE at h
  cases hsel : selectTool ["content", "file"] tools with
  | none =>
      simp only [hsel] at h
      injection h with h2
      subst h2
      simp
  | some ct =>
      simp only [hsel] at h
      cases hcont : pyContainsE "files" pr_data with
      | error e => simp [hcont] at h
      | ok b =>
          cases b with
          | false =>
              simp only [hcont] at h
              injection h with h2
              subst h2
              simp
          | true =>
              simp only [hcont] at h
              cases hget : pyGetE pr_data "files" (PyVal.list []) with
              | error e2 => simp [hget] at h
              | ok fv =>
                  simp only [hget] at h
                  cases hsl : pySlice5E fv with
                  | error e3 => simp [hsl] at h
                  | ok files5 =>
                      simp only [hsl] at h
                      have hb := fetchFilesLoop_ok_length ct o r files5 [] m h
                      have hs := pySlice5E_length fv files5 hsl
                      simp only [List.length_nil] at hb
                      omega

/-- Key membership distributes over append. -/
theorem keyMem_append (a b : List (PyVal × PyVal)) (k : PyVal) :
    keyMem (a ++ b) k = (keyMem a k || keyMem b k) := by
  simp [keyMem, List.any_append]

/-- Assignment of a fresh key appends the entry at the end. -/
theorem dictInsert_fresh (m : List (PyVal × PyVal)) (k v : PyVal)
    (h : keyMem m k = false) : dictInsert m k v = m ++ [(k, v)] := by
  induction m with
  | nil => rfl
  | cons a rest ih =>
      obtain ⟨k0, v0⟩ := a
      simp only [keyMem, List.any_cons, Bool.or_eq_false_iff] at h
      simp only [dictInsert, h.1, Bool.false_eq_true, if_false]
      rw [ih h.2]
      simp

/-- Folding fresh pairwise distinct keys appends the entries in
order. -/
theorem foldl_dictInsert_fresh (v : String → PyVal) (names : List String) :
    ∀ acc, names.Nodup → (∀ s ∈ names, keyMem acc (PyVal.str s) = false) →
    names.foldl (fun a s => dictInsert a (PyVal.str s) (v s)) acc
      = acc ++ names.map fun s => (PyVal.str s, v s) := by
  induction names with
  | nil =>
      intro acc _ _
      simp
  | cons s ss ih =>
      intro acc hnd hfresh
      have hfresh2 : ∀ s2 ∈ ss, keyMem (acc ++ [(PyVal.str s, v s)]) (PyVal.str s2) = false := by
        intro s2 hs2
        rw [keyMem_append]
        have h1 : keyMem acc (PyVal.str s2) = false := hfresh s2 (by simp [hs2])
        have hne : s ≠ s2 := fun heq => (List.nodup_cons.mp hnd).1 (heq ▸ hs2)
        have h2 : keyMem [(PyVal.str s, v s)] (PyVal.str s2) = false := by
          simp only [keyMem, List.any_cons, List.any_nil, Bool.or_false, pyBeq]
          exact beq_eq_false_iff_ne.mpr hne
        rw [h1, h2]
        rfl
      rw [List.foldl_cons, dictInsert_fresh acc _ _ (hfresh s (by simp)),
        ih (acc ++ [(PyVal.str s, v s)]) (List.Nodup.of_cons hnd) hfresh2]
      simp

/-- When the sliced records carry exactly the given filenames, the
file loop folds the per-file assignments over the accumulator. -/
theorem fetchFilesLoop_map (ct : RemoteTool) (o r : String) (names : List String) :
    ∀ (fis : List PyVal) (acc : List (PyVal × PyVal)),
    fis.map fileEntryKey = names.map (fun s => some (PyVal.str s)) →
    fetchFilesLoop ct o r fis acc = Except.ok
      (names.foldl
        (fun a s => dictInsert a (PyVal.str s) (contentEntry ct o r (PyVal.str s))) acc) := by
  induction names with
  | nil =>
      intro fis acc hmap
      have hfis : fis = [] := by
        cases fis with
        | nil => rfl
        | cons g gs => simp at hmap
      subst hfis
      rfl
  | cons s ss ih =>
      intro fis acc hmap
      cases fis with
      | nil => simp at hmap
      | cons g gs =>
          rw [List.map_cons, List.map_cons] at hmap
          injection hmap with h1 h2
          rw [List.foldl_cons]
          simp only [fetchFilesLoop, fetchOneFile, h1]
          exact ih gs _ h2

/-- Claim C4 (amended): the file-contents mapping always holds at most
five entries; and when a content tool is selected, the metadata
carries a files list, and the first at-most-five filenames are
pairwise distinct, the mapping holds exactly those filenames in
original order, each bound to its fetched or error content. Duplicate
filenames among the first five collapse into one entry, so the stated
exactly-five form fails (see the counterexample). -/
theorem claim_C4 (tools : List RemoteTool) (o r : String) (n : Int) (pr_data : PyVal)
    (ct : RemoteTool) (files : List PyVal) (names : List String) :
    (∃ m, getChangedFilesContent tools o r n pr_data = PyVal.dict m ∧ m.length ≤ 5)
    ∧ (selectTool ["content", "file"] tools = some ct →
      pyContainsE "files" pr_data = Except.ok true →
      pyGetE pr_data "files" (PyVal.list []) = Except.ok (PyVal.list files) →
      (files.take 5).map fileEntryKey = names.map (fun s => some (PyVal.str s)) →
      names.Nodup →
      getChangedFilesContent tools o r n pr_data =
        PyVal.dict (names.map fun s => (PyVal.str s, contentEntry ct o r (PyVal.str s)))) := by
  constructor
  · cases hE : getChangedFilesContentE tools o r pr_data with
    | ok m =>
        exact ⟨m, by simp [getChangedFilesContent, hE],
          getCFCE_ok_length tools o r pr_data m hE⟩
    | error e =>
        exact ⟨[(PyVal.str "error", PyVal.str e)],
          by simp [getChangedFilesContent, hE], by simp⟩
  · intro hsel hcont hget hmap hnd
    have hE : getChangedFilesContentE tools o r pr_data = Except.ok
        (names.map fun s => (PyVal.str s, contentEntry ct o r (PyVal.str s))) := by
      unfold getChangedFilesContentE
      simp only [hsel, hcont, hget, pySlice5E]
      rw [fetchFilesLoop_map ct o r names (files.take 5) [] hmap,
        foldl_dictInsert_fresh (fun s => contentEntry ct o r (PyVal.str s)) names [] hnd
          (fun s _ => rfl)]
      simp
    simp [getChangedFilesContent, hE]

/-- Witness for claim C4: six distinct files give exactly the first
five in order. -/
theorem claim_C4_witness :
    getChangedFilesContent [okContentTool] "o" "r" 1 sixFilesPRData =
      PyVal.dict [(PyVal.str "a", PyVal.str "C"), (PyVal.str "b", PyVal.str "C"),
        (PyVal.str "c", PyVal.str "C"), (PyVal.str "d", PyVal.str "C"),
        (PyVal.str "e", PyVal.str "C")] :=
  (claim_C4 [okContentTool] "o" "r" 1 sixFilesPRData okContentTool
      [fileRec "a", fileRec "b", fileRec "c", fileRec "d", fileRec "e", fileRec "f"]
      ["a", "b", "c", "d", "e"]).2 rfl rfl rfl rfl (by decide)

/-- Counterexample to claim C4 as stated: six files whose first two
share a filename yield a four-entry mapping, not the first five files
of the list. -/
theorem claim_C4_counterexample :
    getChangedFilesContent [okContentTool] "o" "r" 1 dupFilesPRData =
      PyVal.dict [(PyVal.str "a", PyVal.str "C"), (PyVal.str "b", PyVal.str "C"),
        (PyVal.str "c", PyVal.str "C"), (PyVal.str "d", PyVal.str "C")]
    ∧ [(PyVal.str "a", PyVal.str "C"), (PyVal.str "b", PyVal.str "C"),
        (PyVal.str "c", PyVal.str "C"), (PyVal.str "d", PyVal.str "C")].length ≠ 5 :=
  ⟨rfl, by decide⟩

end CommitSage
